import Mathlib

/-!
Verification of the BigData MapReduce sales-analysis scripts.

Each JavaScript script follows the same two-phase pattern: a `map` step that
buckets one contribution value per CSV record under a key, and a `reduce`
step that sums each bucket and sorts/filters the result.  This file embeds
the six analysis classes
(`TopSellingProductsMapReduce`, `TotalSalesBySupplierMapReduce`,
`MostPopularProductTypeMapReduce`, `RetailVsWarehouseSplitMapReduce`,
`LowSellingProductsMapReduce`, `MonthlySalesTrendsMapReduce`)
as pure Lean functions and proves the spec's testable properties about them.

Modelling conventions:
* JavaScript numbers are modelled by `ℚ`.  A result of JavaScript division
  that may be non-finite (`NaN` or `±Infinity`, which arise exactly when the
  divisor is `0`) is modelled by `Option ℚ`, with `none` standing for the
  non-finite outcomes.
* A raw CSV field that feeds `parseFloat` is modelled by `RawField`:
  `empty` is the empty string, `nonNumeric` a non-empty string on which
  `parseFloat` returns `NaN`, and `numeric q` a string that `parseFloat`
  parses to the finite value `q` (possibly negative; the fields of the
  dataset are plain decimal literals).
* A JavaScript `Map` preserves key-insertion order, so it is modelled by an
  association list with an `upsert` operation that updates in place and
  appends unseen keys at the end.
* `Array.prototype.sort` is stable (ES2019), so it is modelled by
  `List.mergeSort`, which is also stable; a comparator `c` corresponds to
  the boolean relation `fun a b => c a b ≤ 0`.
-/

/-- Lexical content of a CSV field as seen by `parseFloat`:
the empty string, a non-empty string parsing to `NaN`, or a string parsing
to the finite number `q`. -/
inductive RawField : Type
  | empty : RawField
  | nonNumeric : RawField
  | numeric : ℚ → RawField
deriving DecidableEq, Repr

/-- Models `parseFloat(field) || 0`: a parse failure gives `NaN`, which is
falsy, so the whole expression yields `0`; the value `0` itself is also
falsy and yields `0`; any other parsed value passes through unchanged. -/
def jsToNum : RawField → ℚ
  | .empty => 0
  | .nonNumeric => 0
  | .numeric q => q

/-- Models JavaScript division `x / y` on finite operands: the result is
finite exactly when `y ≠ 0`; `none` stands for the non-finite results
(`NaN` for `0 / 0`, `±Infinity` otherwise). -/
def jsDiv (x y : ℚ) : Option ℚ :=
  if y = 0 then none else some (x / y)

/-- One parsed CSV row.  `parseCSV` fills every header with a string
(missing trailing values default to `''`), so the key-like fields are plain
strings and the two sales fields are `RawField`s. -/
structure Record : Type where
  itemCode : String
  itemDescription : String
  itemType : String
  supplier : String
  year : String
  month : String
  retailSales : RawField
  warehouseSales : RawField
deriving DecidableEq, Repr

/-- The normalization every script performs inline:
`const retailSales = parseFloat(record['RETAIL SALES']) || 0;`
`const warehouseSales = parseFloat(record['WAREHOUSE SALES']) || 0;`
`const totalSales = retailSales + warehouseSales;`. -/
def recordTotalSales (r : Record) : ℚ :=
  jsToNum r.retailSales + jsToNum r.warehouseSales

/-- Models the JavaScript test `s.trim() !== ''`: `String.prototype.trim`
removes all leading and trailing whitespace, so the trimmed string is
non-empty exactly when some character of `s` is not whitespace. -/
def trimNonempty (s : String) : Bool :=
  s.data.any (fun c => !c.isWhitespace)

/-- Models `if (!m.has(k)) m.set(k, init); f(m.get(k))` on an
insertion-ordered map: update the entry in place if the key is present,
otherwise append the freshly initialised entry at the end. -/
def upsert {β : Type} (k : String) (init : β) (f : β → β) :
    List (String × β) → List (String × β)
  | [] => [(k, f init)]
  | (k₁, v) :: rest =>
    if k₁ = k then (k₁, f v) :: rest else (k₁, v) :: upsert k init f rest

/-- Models `m.get(k)` on the association list. -/
def lookupKey {β : Type} (k : String) : List (String × β) → Option β
  | [] => none
  | (k₁, v) :: rest => if k₁ = k then some v else lookupKey k rest

/-- The per-group summary object `{ totalSales, transactionCount,
averageSale }` produced by the monthly-trends, product-type and
channel-split scripts. -/
structure Summary : Type where
  totalSales : ℚ
  transactionCount : ℕ
  averageSale : Option ℚ
deriving DecidableEq, Repr

/-- The reduce body shared verbatim by `MonthlySalesTrendsMapReduce`,
`MostPopularProductTypeMapReduce` and `RetailVsWarehouseSplitMapReduce`:
`totalSales = salesArray.reduce((sum, s) => sum + s, 0)`,
`transactionCount = salesArray.length`,
`averageSale = totalSales / transactionCount` (unguarded division). -/
def summarize (salesArray : List ℚ) : Summary :=
  let totalSales := salesArray.foldl (· + ·) 0
  let transactionCount := salesArray.length
  { totalSales := totalSales
    transactionCount := transactionCount
    averageSale := jsDiv totalSales transactionCount }

namespace LowSellingProductsMapReduce

/-- The per-key value stored by the map phase of `low_selling_products.js`:
`{ sales: [], description, itemType, supplier }`. -/
structure GroupData : Type where
  sales : List ℚ
  description : String
  itemType : String
  supplier : String
deriving DecidableEq, Repr

/-- The inclusion test of the map phase:
`if (itemCode && itemCode.trim() !== '')` — a truthy (non-empty) item code
whose trim is also non-empty; the record's sales total is not consulted. -/
def includes (r : Record) : Bool :=
  r.itemCode != "" && trimNonempty r.itemCode

/-- One call of `map(record)` acting on the `mapResults` map. -/
def mapStep (m : List (String × GroupData)) (r : Record) :
    List (String × GroupData) :=
  let totalSales := recordTotalSales r
  if includes r then
    upsert r.itemCode
      { sales := [], description := r.itemDescription,
        itemType := r.itemType, supplier := r.supplier }
      (fun g => { g with sales := g.sales ++ [totalSales] }) m
  else m

/-- The whole map phase: `records.forEach(record => mapReduce.map(record))`
starting from the empty `mapResults` map. -/
def mapPhase (rs : List Record) : List (String × GroupData) :=
  rs.foldl mapStep []

/-- The per-product object built by `reduce`. -/
structure ProductData : Type where
  totalSales : ℚ
  transactionCount : ℕ
  averageSale : Option ℚ
  description : String
  itemType : String
  supplier : String
deriving DecidableEq, Repr

/-- The body of the `reduce` loop for one group:
`totalSales = data.sales.reduce((sum, s) => sum + s, 0)`,
`transactionCount = data.sales.filter(sale => sale > 0).length`,
`averageSale = transactionCount > 0 ? totalSales / transactionCount : 0`. -/
def reduceEntry (data : GroupData) : ProductData :=
  let totalSales := data.sales.foldl (· + ·) 0
  let transactionCount := (data.sales.filter (fun sale => decide (0 < sale))).length
  { totalSales := totalSales
    transactionCount := transactionCount
    averageSale :=
      if 0 < transactionCount then jsDiv totalSales transactionCount else some 0
    description := data.description
    itemType := data.itemType
    supplier := data.supplier }

/-- The reduce phase: one pass over `mapResults` builds `reducedResults`
and, for the entries with `totalSales < threshold`, `lowSellingProducts`;
both keep the iteration (insertion) order.  Returned as the pair
`(allProducts, lowSellingProducts)`. -/
def reduce (threshold : ℚ) (m : List (String × GroupData)) :
    List (String × ProductData) × List (String × ProductData) :=
  let reducedResults := m.map (fun e => (e.1, reduceEntry e.2))
  let lowSellingProducts :=
    reducedResults.filter (fun e => decide (e.2.totalSales < threshold))
  (reducedResults, lowSellingProducts)

/-- Models `.sort((a, b) => a[1].totalSales - b[1].totalSales)`:
stable sort ascending by `totalSales`. -/
def getLowSellingProductsSorted (low : List (String × ProductData)) :
    List (String × ProductData) :=
  low.mergeSort (fun a b => decide (a.2.totalSales ≤ b.2.totalSales))

/-- Models the threshold selection in `main`:
`const threshold = process.argv[2] ? parseFloat(process.argv[2]) : 100;`.
The argument is `none` when absent; an empty string is falsy, so it also
selects the default `100`; a present non-numeric string parses to `NaN`
(`none` in the `Option ℚ` model of a possibly non-finite number). -/
def chooseThreshold : Option RawField → Option ℚ
  | none => some 100
  | some .empty => some 100
  | some .nonNumeric => none
  | some (.numeric q) => some q

end LowSellingProductsMapReduce

namespace MonthlySalesTrendsMapReduce

/-- Models `month.toString().padStart(2, '0')`: prepend `'0'`s until the
string is at least two characters long. -/
def padStart2 (s : String) : String :=
  if s.length < 2 then String.mk (List.replicate (2 - s.length) '0') ++ s else s

/-- The composite key of `monthly_sales_trends.js`:
`` `${year}-${month.toString().padStart(2, '0')}` ``. -/
def monthKey (r : Record) : String :=
  r.year ++ "-" ++ padStart2 r.month

/-- The inclusion test of the map phase:
`if (totalSales > 0 && year && month)` — positive total and truthy
(non-empty) year and month strings. -/
def includes (r : Record) : Bool :=
  decide (0 < recordTotalSales r) && r.year != "" && r.month != ""

/-- One call of `map(record)`: when the record is included, append
`totalSales` to the month's list. -/
def mapStep (m : List (String × List ℚ)) (r : Record) :
    List (String × List ℚ) :=
  let totalSales := recordTotalSales r
  if includes r then
    upsert (monthKey r) [] (fun sales => sales ++ [totalSales]) m
  else m

/-- The whole map phase starting from the empty `mapResults` map. -/
def mapPhase (rs : List Record) : List (String × List ℚ) :=
  rs.foldl mapStep []

/-- The reduce phase: summarise every month's list, keeping the order. -/
def reduce (m : List (String × List ℚ)) : List (String × Summary) :=
  m.map (fun e => (e.1, summarize e.2))

/-- Models `.sort((a, b) => a[0].localeCompare(b[0]))` on `"YYYY-MM"` keys:
stable sort ascending by the key string. -/
def getMonthsSorted (reducedResults : List (String × Summary)) :
    List (String × Summary) :=
  reducedResults.mergeSort (fun a b => decide (a.1 ≤ b.1))

end MonthlySalesTrendsMapReduce

namespace TopSellingProductsMapReduce

/-- The per-key value stored by the map phase of the top-selling-products
script: `{ sales: [], description }`. -/
structure GroupData : Type where
  sales : List ℚ
  description : String
deriving DecidableEq, Repr

/-- The inclusion test of the map phase: `if (totalSales > 0)` only — the
item code is not checked. -/
def includes (r : Record) : Bool :=
  decide (0 < recordTotalSales r)

/-- One call of `map(record)`: when the total is positive, append it to the
item's list. -/
def mapStep (m : List (String × GroupData)) (r : Record) :
    List (String × GroupData) :=
  let totalSales := recordTotalSales r
  if includes r then
    upsert r.itemCode { sales := [], description := r.itemDescription }
      (fun g => { g with sales := g.sales ++ [totalSales] }) m
  else m

/-- The whole map phase starting from the empty `mapResults` map. -/
def mapPhase (rs : List Record) : List (String × GroupData) :=
  rs.foldl mapStep []

/-- The per-item object built by `reduce`. -/
structure ItemSummary : Type where
  totalSales : ℚ
  description : String
deriving DecidableEq, Repr

/-- The body of the `reduce` loop for one item. -/
def reduceEntry (data : GroupData) : ItemSummary :=
  { totalSales := data.sales.foldl (· + ·) 0
    description := data.description }

/-- The reduce phase, keeping the insertion order. -/
def reduce (m : List (String × GroupData)) : List (String × ItemSummary) :=
  m.map (fun e => (e.1, reduceEntry e.2))

/-- Models `getTopProducts(reducedResults, n)`:
`.sort((a, b) => b[1].totalSales - a[1].totalSales).slice(0, n)` —
stable sort descending by `totalSales`, then take the first `n`. -/
def getTopProducts (reducedResults : List (String × ItemSummary))
    (n : ℕ := 10) : List (String × ItemSummary) :=
  (reducedResults.mergeSort
    (fun a b => decide (b.2.totalSales ≤ a.2.totalSales))).take n

end TopSellingProductsMapReduce

namespace TotalSalesBySupplierMapReduce

/-- The inclusion test of the map phase:
`if (totalSales > 0 && supplier && supplier.trim() !== '')`. -/
def includes (r : Record) : Bool :=
  decide (0 < recordTotalSales r) && r.supplier != "" && trimNonempty r.supplier

/-- One call of `map(record)`: when the record is included, append
`totalSales` to the supplier's list. -/
def mapStep (m : List (String × List ℚ)) (r : Record) :
    List (String × List ℚ) :=
  let totalSales := recordTotalSales r
  if includes r then
    upsert r.supplier [] (fun sales => sales ++ [totalSales]) m
  else m

/-- The whole map phase starting from the empty `mapResults` map. -/
def mapPhase (rs : List Record) : List (String × List ℚ) :=
  rs.foldl mapStep []

/-- The reduce phase: each supplier maps to the plain sum of its list. -/
def reduce (m : List (String × List ℚ)) : List (String × ℚ) :=
  m.map (fun e => (e.1, e.2.foldl (· + ·) 0))

/-- Models `getTopSuppliers(reducedResults, n)`:
`.sort((a, b) => b[1] - a[1]).slice(0, n)`. -/
def getTopSuppliers (reducedResults : List (String × ℚ)) (n : ℕ := 10) :
    List (String × ℚ) :=
  (reducedResults.mergeSort (fun a b => decide (b.2 ≤ a.2))).take n

end TotalSalesBySupplierMapReduce

namespace MostPopularProductTypeMapReduce

/-- The inclusion test of the map phase:
`if (totalSales > 0 && itemType && itemType.trim() !== '')`. -/
def includes (r : Record) : Bool :=
  decide (0 < recordTotalSales r) && r.itemType != "" && trimNonempty r.itemType

/-- One call of `map(record)`: when the record is included, append
`totalSales` to the item type's list. -/
def mapStep (m : List (String × List ℚ)) (r : Record) :
    List (String × List ℚ) :=
  let totalSales := recordTotalSales r
  if includes r then
    upsert r.itemType [] (fun sales => sales ++ [totalSales]) m
  else m

/-- The whole map phase starting from the empty `mapResults` map. -/
def mapPhase (rs : List Record) : List (String × List ℚ) :=
  rs.foldl mapStep []

/-- The reduce phase: summarise every type's list, keeping the order. -/
def reduce (m : List (String × List ℚ)) : List (String × Summary) :=
  m.map (fun e => (e.1, summarize e.2))

/-- Models `.sort((a, b) => b[1].totalSales - a[1].totalSales)`:
stable sort descending by `totalSales`. -/
def getProductTypesByPopularity (reducedResults : List (String × Summary)) :
    List (String × Summary) :=
  reducedResults.mergeSort (fun a b => decide (b.2.totalSales ≤ a.2.totalSales))

/-- The grand total computed in `main`:
`productTypesByPopularity.reduce((sum, t) => sum + t[1].totalSales, 0)`. -/
def totalRevenue (results : List (String × Summary)) : ℚ :=
  results.foldl (fun sum e => sum + e.2.totalSales) 0

/-- The market share printed in `main`:
`(data.totalSales / totalRevenue) * 100`, a possibly non-finite number. -/
def marketShare (totalRevenue : ℚ) (data : Summary) : Option ℚ :=
  (jsDiv data.totalSales totalRevenue).map (· * 100)

end MostPopularProductTypeMapReduce

namespace RetailVsWarehouseSplitMapReduce

/-- One call of `map(record)`: two independent conditional emits,
`("retail", retailSales)` when `retailSales > 0` and then
`("warehouse", warehouseSales)` when `warehouseSales > 0`. -/
def mapStep (m : List (String × List ℚ)) (r : Record) :
    List (String × List ℚ) :=
  let retailSales := jsToNum r.retailSales
  let warehouseSales := jsToNum r.warehouseSales
  let m₁ :=
    if decide (0 < retailSales) then
      upsert "retail" [] (fun sales => sales ++ [retailSales]) m
    else m
  if decide (0 < warehouseSales) then
    upsert "warehouse" [] (fun sales => sales ++ [warehouseSales]) m₁
  else m₁

/-- The whole map phase starting from the empty `mapResults` map. -/
def mapPhase (rs : List Record) : List (String × List ℚ) :=
  rs.foldl mapStep []

/-- The reduce phase: summarise each channel's list, keeping the order. -/
def reduce (m : List (String × List ℚ)) : List (String × Summary) :=
  m.map (fun e => (e.1, summarize e.2))

/-- The grand total computed in `main`:
`Array.from(reducedResults.values()).reduce((sum, d) => sum + d.totalSales, 0)`. -/
def totalRevenue (results : List (String × Summary)) : ℚ :=
  results.foldl (fun sum e => sum + e.2.totalSales) 0

/-- The market share printed in `main`:
`(data.totalSales / totalRevenue) * 100`, a possibly non-finite number. -/
def marketShare (totalRevenue : ℚ) (data : Summary) : Option ℚ :=
  (jsDiv data.totalSales totalRevenue).map (· * 100)

/-- The display order of `main`:
`.sort((a, b) => b[1].totalSales - a[1].totalSales)`. -/
def sortedResults (reducedResults : List (String × Summary)) :
    List (String × Summary) :=
  reducedResults.mergeSort (fun a b => decide (b.2.totalSales ≤ a.2.totalSales))

end RetailVsWarehouseSplitMapReduce

namespace LowSellingProductsMapReduce

/-- Specification-side description of the map phase: the contribution
values appended to the group of key `k` while processing `rs`, in order. -/
def contributionsAt (k : String) (rs : List Record) : List ℚ :=
  (rs.filter (fun r => includes r && r.itemCode == k)).map recordTotalSales

/-- The accumulation list stored at key `k` (empty when the key is absent). -/
def salesAt (k : String) (m : List (String × GroupData)) : List ℚ :=
  ((lookupKey k m).map GroupData.sales).getD []

end LowSellingProductsMapReduce

namespace MonthlySalesTrendsMapReduce

/-- Specification-side description of the map phase: the contribution
values appended to the group of key `k` while processing `rs`, in order. -/
def contributionsAt (k : String) (rs : List Record) : List ℚ :=
  (rs.filter (fun r => includes r && monthKey r == k)).map recordTotalSales

/-- The accumulation list stored at key `k` (empty when the key is absent). -/
def salesAt (k : String) (m : List (String × List ℚ)) : List ℚ :=
  (lookupKey k m).getD []

end MonthlySalesTrendsMapReduce

/-- Sample record matching end-to-end scenario 3 of the spec: item `Z1`
with zero retail sales and an empty warehouse-sales field. -/
def zeroSalesRecord : Record :=
  { itemCode := "Z1", itemDescription := "Widget", itemType := "WINE",
    supplier := "ACME", year := "2021", month := "1",
    retailSales := .numeric 0, warehouseSales := .empty }

/-- Sample record whose retail-sales field parses to a negative number
(for example a column holding `-5`, as a return or a correction row). -/
def negativeSalesRecord : Record :=
  { itemCode := "N1", itemDescription := "", itemType := "",
    supplier := "", year := "2021", month := "1",
    retailSales := .numeric (-5), warehouseSales := .empty }

/-- Sample record with a whitespace-only item code and positive sales. -/
def blankCodeRecord : Record :=
  { itemCode := " ", itemDescription := "", itemType := "",
    supplier := "", year := "2021", month := "1",
    retailSales := .numeric 50, warehouseSales := .empty }

/-- Sample record with positive sales on both channels. -/
def posSalesRecord : Record :=
  { itemCode := "A001", itemDescription := "Widget", itemType := "WINE",
    supplier := "ACME", year := "2021", month := "1",
    retailSales := .numeric 50, warehouseSales := .numeric 25 }

/-! ### Generic lemmas about the insertion-ordered map -/

theorem lookupKey_upsert_self {β : Type} (k : String) (init : β) (f : β → β)
    (m : List (String × β)) :
    lookupKey k (upsert k init f m) = some (f ((lookupKey k m).getD init)) := by
  induction m with
  | nil => simp [upsert, lookupKey]
  | cons e rest ih =>
    obtain ⟨k₁, v⟩ := e
    by_cases h : k₁ = k
    · subst h
      simp [upsert, lookupKey]
    · simp [upsert, lookupKey, h, ih]

theorem lookupKey_upsert_ne {β : Type} {k' k : String} (h : k' ≠ k)
    (init : β) (f : β → β) (m : List (String × β)) :
    lookupKey k' (upsert k init f m) = lookupKey k' m := by
  induction m with
  | nil => simp [upsert, lookupKey, Ne.symm h]
  | cons e rest ih =>
    obtain ⟨k₁, v⟩ := e
    by_cases hk : k₁ = k
    · subst hk
      simp [upsert, lookupKey, Ne.symm h]
    · simp [upsert, lookupKey, hk, ih]

theorem isSome_lookupKey_upsert {β : Type} (k' k : String) (init : β)
    (f : β → β) (m : List (String × β)) :
    (lookupKey k' (upsert k init f m)).isSome
      = ((k == k') || (lookupKey k' m).isSome) := by
  by_cases h : k' = k
  · subst h
    simp [lookupKey_upsert_self]
  · simp [lookupKey_upsert_ne h, beq_iff_eq, Ne.symm h]

theorem forall_upsert {β : Type} {P : β → Prop} {m : List (String × β)}
    {k : String} {init : β} {f : β → β}
    (hm : ∀ kv ∈ m, P kv.2) (hinit : P (f init)) (hf : ∀ g, P g → P (f g)) :
    ∀ kv ∈ upsert k init f m, P kv.2 := by
  induction m with
  | nil =>
    intro kv hkv
    simp only [upsert, List.mem_singleton] at hkv
    simpa [hkv] using hinit
  | cons e rest ih =>
    obtain ⟨k₁, v⟩ := e
    have hv : P v := hm (k₁, v) (by simp)
    have hrest : ∀ kv ∈ rest, P kv.2 := fun kv hkv => hm kv (by simp [hkv])
    intro kv hkv
    by_cases h : k₁ = k
    · simp only [upsert, h, if_pos rfl] at hkv
      rcases List.mem_cons.mp hkv with h₁ | h₁
      · simpa [h₁] using hf v hv
      · exact hrest kv h₁
    · simp only [upsert, if_neg h] at hkv
      rcases List.mem_cons.mp hkv with h₁ | h₁
      · simpa [h₁] using hv
      · exact ih hrest kv h₁

theorem foldl_invariant {σ : Type} {P : σ → Prop} (step : σ → Record → σ)
    (hstep : ∀ m r, P m → P (step m r)) :
    ∀ (rs : List Record) (m : σ), P m → P (rs.foldl step m) := by
  intro rs
  induction rs with
  | nil => intro m hm; simpa using hm
  | cons r rest ih =>
    intro m hm
    simpa using ih (step m r) (hstep m r hm)

theorem lookupKey_map {β γ : Type} (h : β → γ) (k : String)
    (m : List (String × β)) :
    lookupKey k (m.map (fun e => (e.1, h e.2))) = (lookupKey k m).map h := by
  induction m with
  | nil => simp [lookupKey]
  | cons e rest ih =>
    obtain ⟨k₁, v⟩ := e
    by_cases hk : k₁ = k
    · simp [lookupKey, hk]
    · simp [lookupKey, hk, ih]

theorem foldl_add_eq_sum (l : List ℚ) (a : ℚ) :
    l.foldl (· + ·) a = a + l.sum := by
  induction l generalizing a with
  | nil => simp
  | cons x xs ih => simp [ih, add_assoc]

theorem foldl_add_map_eq_sum {α : Type} (f : α → ℚ) (l : List α) (a : ℚ) :
    l.foldl (fun sum e => sum + f e) a = a + (l.map f).sum := by
  induction l generalizing a with
  | nil => simp
  | cons x xs ih => simp [ih, add_assoc]

/-! ### Characterisation of the low-selling-products map phase -/

namespace LowSellingProductsMapReduce

theorem lsp_salesAt_mapStep (m : List (String × GroupData)) (r : Record) (k : String) :
    salesAt k (mapStep m r)
      = salesAt k m
        ++ (if includes r && (r.itemCode == k) then [recordTotalSales r] else []) := by
  unfold mapStep
  by_cases hinc : includes r
  · by_cases hk : r.itemCode = k
    · subst hk
      rw [salesAt, if_pos hinc, lookupKey_upsert_self]
      cases hlk : lookupKey r.itemCode m with
      | none => simp [salesAt, hlk, hinc]
      | some g => simp [salesAt, hlk, hinc]
    · rw [salesAt, if_pos hinc, lookupKey_upsert_ne (Ne.symm hk)]
      simp [salesAt, hinc, hk]
  · simp [salesAt, hinc]

theorem lsp_salesAt_foldl (rs : List Record) :
    ∀ (m : List (String × GroupData)) (k : String),
      salesAt k (rs.foldl mapStep m) = salesAt k m ++ contributionsAt k rs := by
  induction rs with
  | nil => intro m k; simp [contributionsAt]
  | cons r rest ih =>
    intro m k
    simp only [List.foldl_cons]
    rw [ih, lsp_salesAt_mapStep]
    by_cases hc : includes r && (r.itemCode == k)
    · simp [contributionsAt, List.filter_cons, hc]
    · simp [contributionsAt, List.filter_cons, hc]

theorem lsp_salesAt_mapPhase (rs : List Record) (k : String) :
    salesAt k (mapPhase rs) = contributionsAt k rs := by
  simpa [salesAt, lookupKey] using lsp_salesAt_foldl rs [] k

theorem lsp_sales_of_lookupKey_mapPhase {rs : List Record} {k : String}
    {g : GroupData} (h : lookupKey k (mapPhase rs) = some g) :
    g.sales = contributionsAt k rs := by
  have := lsp_salesAt_mapPhase rs k
  rw [salesAt, h] at this
  simpa using this

theorem isSome_lookupKey_foldl (rs : List Record) :
    ∀ (m : List (String × GroupData)) (k : String),
      (lookupKey k (rs.foldl mapStep m)).isSome
        = ((lookupKey k m).isSome
            || rs.any (fun r => includes r && (r.itemCode == k))) := by
  induction rs with
  | nil => intro m k; simp
  | cons r rest ih =>
    intro m k
    simp only [List.foldl_cons, List.any_cons]
    rw [ih]
    unfold mapStep
    by_cases hinc : includes r
    · rw [if_pos hinc, isSome_lookupKey_upsert]
      simp [hinc, Bool.or_comm, Bool.or_left_comm, Bool.or_assoc]
    · simp [hinc]

theorem isSome_lookupKey_mapPhase (rs : List Record) (k : String) :
    (lookupKey k (mapPhase rs)).isSome
      = rs.any (fun r => includes r && (r.itemCode == k)) := by
  simpa [mapPhase, lookupKey] using isSome_lookupKey_foldl rs [] k

end LowSellingProductsMapReduce

/-! ### Characterisation of the monthly-trends map phase -/

namespace MonthlySalesTrendsMapReduce

theorem monthly_salesAt_mapStep (m : List (String × List ℚ)) (r : Record) (k : String) :
    salesAt k (mapStep m r)
      = salesAt k m
        ++ (if includes r && (monthKey r == k) then [recordTotalSales r] else []) := by
  unfold mapStep
  by_cases hinc : includes r
  · by_cases hk : monthKey r = k
    · rw [salesAt, if_pos hinc, hk, lookupKey_upsert_self]
      cases hlk : lookupKey k m with
      | none => simp [salesAt, hlk, hinc, hk]
      | some sales => simp [salesAt, hlk, hinc, hk]
    · rw [salesAt, if_pos hinc, lookupKey_upsert_ne (Ne.symm hk)]
      simp [salesAt, hinc, hk]
  · simp [salesAt, hinc]

theorem monthly_salesAt_foldl (rs : List Record) :
    ∀ (m : List (String × List ℚ)) (k : String),
      salesAt k (rs.foldl mapStep m) = salesAt k m ++ contributionsAt k rs := by
  induction rs with
  | nil => intro m k; simp [contributionsAt]
  | cons r rest ih =>
    intro m k
    simp only [List.foldl_cons]
    rw [ih, monthly_salesAt_mapStep]
    by_cases hc : includes r && (monthKey r == k)
    · simp [contributionsAt, List.filter_cons, hc]
    · simp [contributionsAt, List.filter_cons, hc]

theorem monthly_salesAt_mapPhase (rs : List Record) (k : String) :
    salesAt k (mapPhase rs) = contributionsAt k rs := by
  simpa [salesAt, lookupKey] using monthly_salesAt_foldl rs [] k

theorem monthly_sales_of_lookupKey_mapPhase {rs : List Record} {k : String}
    {sales : List ℚ} (h : lookupKey k (mapPhase rs) = some sales) :
    sales = contributionsAt k rs := by
  have := monthly_salesAt_mapPhase rs k
  rw [salesAt, h] at this
  simpa using this

end MonthlySalesTrendsMapReduce

/-! ### Positivity invariants of the accumulation lists -/

theorem forall_upsert_append_pos {v : ℚ} (hv : 0 < v)
    {m : List (String × List ℚ)} {k : String}
    (hm : ∀ kv ∈ m, kv.2 ≠ [] ∧ ∀ s ∈ kv.2, 0 < s) :
    ∀ kv ∈ upsert k [] (fun sales => sales ++ [v]) m,
      kv.2 ≠ [] ∧ ∀ s ∈ kv.2, 0 < s := by
  refine forall_upsert (P := fun g : List ℚ => g ≠ [] ∧ ∀ s ∈ g, 0 < s) hm
    ⟨by simp, by simpa using hv⟩ ?_
  rintro g ⟨hne, hg⟩
  refine ⟨by simp, ?_⟩
  intro s hs
  rcases List.mem_append.mp hs with h | h
  · exact hg s h
  · rw [List.mem_singleton] at h
    rw [h]
    exact hv

theorem MonthlySalesTrendsMapReduce.monthly_mem_mapPhase_pos (rs : List Record) :
    ∀ kv ∈ mapPhase rs, kv.2 ≠ [] ∧ ∀ s ∈ kv.2, 0 < s := by
  have h := foldl_invariant
    (P := fun m : List (String × List ℚ) => ∀ kv ∈ m, kv.2 ≠ [] ∧ ∀ s ∈ kv.2, 0 < s)
    mapStep ?_ rs [] (by simp)
  · exact h
  · intro m r hm
    unfold mapStep
    by_cases hinc : includes r
    · rw [if_pos hinc]
      have hpos : 0 < recordTotalSales r := by
        simp only [includes, Bool.and_eq_true, decide_eq_true_eq] at hinc
        exact hinc.1.1
      exact forall_upsert_append_pos hpos hm
    · rw [if_neg hinc]
      exact hm

theorem MostPopularProductTypeMapReduce.productType_mem_mapPhase_pos (rs : List Record) :
    ∀ kv ∈ mapPhase rs, kv.2 ≠ [] ∧ ∀ s ∈ kv.2, 0 < s := by
  have h := foldl_invariant
    (P := fun m : List (String × List ℚ) => ∀ kv ∈ m, kv.2 ≠ [] ∧ ∀ s ∈ kv.2, 0 < s)
    mapStep ?_ rs [] (by simp)
  · exact h
  · intro m r hm
    unfold mapStep
    by_cases hinc : includes r
    · rw [if_pos hinc]
      have hpos : 0 < recordTotalSales r := by
        simp only [includes, Bool.and_eq_true, decide_eq_true_eq] at hinc
        exact hinc.1.1
      exact forall_upsert_append_pos hpos hm
    · rw [if_neg hinc]
      exact hm

theorem TotalSalesBySupplierMapReduce.supplier_mem_mapPhase_pos (rs : List Record) :
    ∀ kv ∈ mapPhase rs, kv.2 ≠ [] ∧ ∀ s ∈ kv.2, 0 < s := by
  have h := foldl_invariant
    (P := fun m : List (String × List ℚ) => ∀ kv ∈ m, kv.2 ≠ [] ∧ ∀ s ∈ kv.2, 0 < s)
    mapStep ?_ rs [] (by simp)
  · exact h
  · intro m r hm
    unfold mapStep
    by_cases hinc : includes r
    · rw [if_pos hinc]
      have hpos : 0 < recordTotalSales r := by
        simp only [includes, Bool.and_eq_true, decide_eq_true_eq] at hinc
        exact hinc.1.1
      exact forall_upsert_append_pos hpos hm
    · rw [if_neg hinc]
      exact hm

theorem RetailVsWarehouseSplitMapReduce.channel_mem_mapPhase_pos (rs : List Record) :
    ∀ kv ∈ mapPhase rs, kv.2 ≠ [] ∧ ∀ s ∈ kv.2, 0 < s := by
  have h := foldl_invariant
    (P := fun m : List (String × List ℚ) => ∀ kv ∈ m, kv.2 ≠ [] ∧ ∀ s ∈ kv.2, 0 < s)
    mapStep ?_ rs [] (by simp)
  · exact h
  · intro m r hm
    simp only [mapStep]
    split_ifs with hw hr hr
    · exact forall_upsert_append_pos (of_decide_eq_true hw)
        (forall_upsert_append_pos (of_decide_eq_true hr) hm)
    · exact forall_upsert_append_pos (of_decide_eq_true hw) hm
    · exact forall_upsert_append_pos (of_decide_eq_true hr) hm
    · exact hm

/-! ### Facts about the shared group summary -/

theorem summarize_totalSales (l : List ℚ) : (summarize l).totalSales = l.sum := by
  simp [summarize, foldl_add_eq_sum]

theorem summarize_totalSales_pos {l : List ℚ} (hne : l ≠ [])
    (hpos : ∀ s ∈ l, 0 < s) : 0 < (summarize l).totalSales := by
  rw [summarize_totalSales]
  exact List.sum_pos l hpos hne

theorem summarize_transactionCount_pos {l : List ℚ} (hne : l ≠ []) :
    1 ≤ (summarize l).transactionCount := by
  simpa [summarize, Nat.succ_le_iff] using List.length_pos.mpr hne

theorem summarize_averageSale_isSome {l : List ℚ} (hne : l ≠ []) :
    (summarize l).averageSale ≠ none := by
  have hlen : (l.length : ℚ) ≠ 0 :=
    Nat.cast_ne_zero.mpr (by simpa [List.length_eq_zero] using hne)
  simp [summarize, jsDiv, hlen]

/-! ### Stability and orderedness of the comparator sorts -/

theorem key_le_trans {α β : Type} [LinearOrder β] (f : α → β) :
    ∀ a b c : α, decide (f a ≤ f b) = true → decide (f b ≤ f c) = true →
      decide (f a ≤ f c) = true := by
  intro a b c hab hbc
  simp only [decide_eq_true_eq] at *
  exact le_trans hab hbc

theorem key_le_total {α β : Type} [LinearOrder β] (f : α → β) :
    ∀ a b : α, (decide (f a ≤ f b) || decide (f b ≤ f a)) = true := by
  intro a b
  simpa using le_total (f a) (f b)

theorem key_ge_trans {α β : Type} [LinearOrder β] (f : α → β) :
    ∀ a b c : α, decide (f b ≤ f a) = true → decide (f c ≤ f b) = true →
      decide (f c ≤ f a) = true := by
  intro a b c hab hbc
  simp only [decide_eq_true_eq] at *
  exact le_trans hbc hab

theorem key_ge_total {α β : Type} [LinearOrder β] (f : α → β) :
    ∀ a b : α, (decide (f b ≤ f a) || decide (f a ≤ f b)) = true := by
  intro a b
  simpa using (le_total (f a) (f b)).symm

theorem mergeSort_filter_stable {α : Type} (le : α → α → Bool)
    (htrans : ∀ a b c, le a b = true → le b c = true → le a c = true)
    (htotal : ∀ a b, (le a b || le b a) = true)
    (p : α → Bool) (hp : ∀ a b, p a = true → p b = true → le a b = true)
    (l : List α) :
    (l.mergeSort le).filter p = l.filter p := by
  have hpair : (l.filter p).Pairwise (fun a b => le a b = true) :=
    List.pairwise_of_forall_mem_list
      (fun a ha b hb => hp a b (List.of_mem_filter ha) (List.of_mem_filter hb))
  have hsub : List.Sublist (l.filter p) (l.mergeSort le) :=
    List.sublist_mergeSort htrans htotal hpair (List.filter_sublist l)
  have heq : (l.filter p).filter p = l.filter p :=
    List.filter_eq_self.mpr (fun a ha => List.of_mem_filter ha)
  have hsub₂ : List.Sublist (l.filter p) ((l.mergeSort le).filter p) := by
    have := List.Sublist.filter p hsub
    rwa [heq] at this
  have hlen : ((l.mergeSort le).filter p).length = (l.filter p).length :=
    (List.Perm.filter p (List.mergeSort_perm l le)).length_eq
  exact (List.Sublist.eq_of_length hsub₂ hlen.symm).symm

/-! ### Claim C4 -/

/-- C4: for every raw record, normalization parses the `RETAIL SALES` and
`WAREHOUSE SALES` fields as floats, each defaulting to `0` when the field
is empty or non-numeric, and the record's `totalSales` always equals
`retailSales + warehouseSales`. -/
theorem C4_normalization_defaults_and_total :
    (∀ r : Record,
      recordTotalSales r = jsToNum r.retailSales + jsToNum r.warehouseSales)
    ∧ jsToNum RawField.empty = 0
    ∧ jsToNum RawField.nonNumeric = 0
    ∧ ∀ q : ℚ, jsToNum (RawField.numeric q) = q :=
  ⟨fun _ => rfl, rfl, rfl, fun _ => rfl⟩

/-! ### Claim C5 -/

/-- C5 is false as stated: the record `negativeSalesRecord`, whose retail
field parses to `-5`, normalizes to a negative `retailSales` — the code
passes negative parsed values through without clamping. -/
theorem C5_nonnegative_counterexample :
    ¬ (0 ≤ jsToNum negativeSalesRecord.retailSales) := by
  norm_num [negativeSalesRecord, jsToNum]

/-- C5 (amended): for every raw record, the normalized sales fields default
to `0` when the field is empty or non-numeric, and are nonnegative provided
each field is empty, non-numeric, or parses to a nonnegative number; the
code does not clamp negative parsed values. -/
theorem C5_nonnegative_for_nonnegative_fields :
    ∀ f : RawField,
      (f = RawField.empty ∨ f = RawField.nonNumeric
        ∨ ∃ q, 0 ≤ q ∧ f = RawField.numeric q) →
      0 ≤ jsToNum f := by
  rintro f (rfl | rfl | ⟨q, hq, rfl⟩)
  · simp [jsToNum]
  · simp [jsToNum]
  · simpa [jsToNum] using hq

/-- Witness for C5 (amended) at the empty field. -/
theorem C5_nonnegative_for_nonnegative_fields_witness :
    (RawField.empty = RawField.empty ∨ RawField.empty = RawField.nonNumeric
      ∨ ∃ q, 0 ≤ q ∧ RawField.empty = RawField.numeric q)
    ∧ 0 ≤ jsToNum RawField.empty :=
  ⟨Or.inl rfl, C5_nonnegative_for_nonnegative_fields RawField.empty (Or.inl rfl)⟩

/-! ### Claim C2 -/

/-- C2 (amended): when a group has zero qualifying transactions — which can
happen only in the low-selling-products analysis, the only one that
accumulates zero contributions — the computed `averageSale` is replaced by
the defined default `0` instead of propagating a non-finite value. -/
theorem C2_zero_count_average_defaults_to_zero :
    ∀ g : LowSellingProductsMapReduce.GroupData,
      (LowSellingProductsMapReduce.reduceEntry g).transactionCount = 0 →
      (LowSellingProductsMapReduce.reduceEntry g).averageSale = some 0 := by
  intro g h
  simp only [LowSellingProductsMapReduce.reduceEntry] at *
  simp [h]

/-- C2 is false as stated: running the low-selling-products pipeline on the
single zero-sales record produces the group `Z1` with
`transactionCount = 0`, whose `averageSale` is the defined default `some 0`
— a finite value, not a non-finite one (`none` in this model). -/
theorem C2_nonfinite_average_counterexample :
    lookupKey "Z1"
        (LowSellingProductsMapReduce.reduce 100
          (LowSellingProductsMapReduce.mapPhase [zeroSalesRecord])).1
      = some (LowSellingProductsMapReduce.reduceEntry ⟨[0], "Widget", "WINE", "ACME"⟩)
    ∧ (LowSellingProductsMapReduce.reduceEntry
        ⟨[0], "Widget", "WINE", "ACME"⟩).transactionCount = 0
    ∧ (LowSellingProductsMapReduce.reduceEntry
        ⟨[0], "Widget", "WINE", "ACME"⟩).averageSale = some 0
    ∧ (LowSellingProductsMapReduce.reduceEntry
        ⟨[0], "Widget", "WINE", "ACME"⟩).averageSale ≠ none := by
  have hmap : LowSellingProductsMapReduce.mapPhase [zeroSalesRecord]
      = [("Z1", ⟨[0], "Widget", "WINE", "ACME"⟩)] := by
    have hinc : LowSellingProductsMapReduce.includes zeroSalesRecord = true := by decide
    have htot : recordTotalSales zeroSalesRecord = 0 := by
      norm_num [recordTotalSales, zeroSalesRecord, jsToNum]
    have hcode : zeroSalesRecord.itemCode = "Z1" := rfl
    have hdesc : zeroSalesRecord.itemDescription = "Widget" := rfl
    have htype : zeroSalesRecord.itemType = "WINE" := rfl
    have hsupp : zeroSalesRecord.supplier = "ACME" := rfl
    simp [LowSellingProductsMapReduce.mapPhase, LowSellingProductsMapReduce.mapStep,
      hinc, htot, hcode, hdesc, htype, hsupp, upsert]
  have hcount : (LowSellingProductsMapReduce.reduceEntry
      ⟨[0], "Widget", "WINE", "ACME"⟩).transactionCount = 0 := by
    norm_num [LowSellingProductsMapReduce.reduceEntry, List.filter]
  have havg : (LowSellingProductsMapReduce.reduceEntry
      ⟨[0], "Widget", "WINE", "ACME"⟩).averageSale = some 0 := by
    norm_num [LowSellingProductsMapReduce.reduceEntry, List.filter]
  refine ⟨?_, hcount, havg, by simp [havg]⟩
  rw [hmap]
  simp [LowSellingProductsMapReduce.reduce, lookupKey]

/-- Witness for C2 (amended) at the one-element accumulation `[0]`. -/
theorem C2_zero_count_average_defaults_to_zero_witness :
    (LowSellingProductsMapReduce.reduceEntry ⟨[0], "", "", ""⟩).transactionCount = 0
    ∧ (LowSellingProductsMapReduce.reduceEntry ⟨[0], "", "", ""⟩).averageSale = some 0 := by
  have h : (LowSellingProductsMapReduce.reduceEntry
      ⟨[0], "", "", ""⟩).transactionCount = 0 := by
    norm_num [LowSellingProductsMapReduce.reduceEntry, List.filter]
  exact ⟨h, C2_zero_count_average_defaults_to_zero ⟨[0], "", "", ""⟩ h⟩

/-! ### Claim C3 -/

/-- C3: for every threshold `t` and every reduced group map, the
low-selling filter returns exactly the entries with `totalSales < t`
(in particular any group with `totalSales = 0` whenever `0 < t`), and the
threshold defaults to `100` and is overridable by a caller-supplied
numeric argument. -/
theorem C3_threshold_filter_exact :
    (∀ (t : ℚ) (m : List (String × LowSellingProductsMapReduce.GroupData)),
      (LowSellingProductsMapReduce.reduce t m).2
        = (LowSellingProductsMapReduce.reduce t m).1.filter
            (fun e => decide (e.2.totalSales < t)))
    ∧ (∀ (t : ℚ) (m : List (String × LowSellingProductsMapReduce.GroupData))
        (k : String) (d : LowSellingProductsMapReduce.ProductData),
        (k, d) ∈ (LowSellingProductsMapReduce.reduce t m).2
          ↔ (k, d) ∈ (LowSellingProductsMapReduce.reduce t m).1 ∧ d.totalSales < t)
    ∧ (∀ (t : ℚ) (m : List (String × LowSellingProductsMapReduce.GroupData))
        (k : String) (d : LowSellingProductsMapReduce.ProductData),
        0 < t → (k, d) ∈ (LowSellingProductsMapReduce.reduce t m).1 →
        d.totalSales = 0 → (k, d) ∈ (LowSellingProductsMapReduce.reduce t m).2)
    ∧ LowSellingProductsMapReduce.chooseThreshold none = some 100
    ∧ (∀ q : ℚ,
        LowSellingProductsMapReduce.chooseThreshold (some (RawField.numeric q))
          = some q) := by
  refine ⟨fun t m => rfl, ?_, ?_, rfl, fun q => rfl⟩
  · intro t m k d
    simp [LowSellingProductsMapReduce.reduce, List.mem_filter]
  · intro t m k d ht hmem hz
    have : (k, d) ∈ (LowSellingProductsMapReduce.reduce t m).1 ∧ d.totalSales < t :=
      ⟨hmem, by rw [hz]; exact ht⟩
    simpa [LowSellingProductsMapReduce.reduce, List.mem_filter]
      using ⟨by simpa [LowSellingProductsMapReduce.reduce] using hmem, this.2⟩

/-- Witness for C3 at threshold `100` and a zero-sales one-group map. -/
theorem C3_threshold_filter_exact_witness :
    ((0 : ℚ) < 100)
    ∧ ("Z1", LowSellingProductsMapReduce.reduceEntry ⟨[0], "", "", ""⟩)
        ∈ (LowSellingProductsMapReduce.reduce 100 [("Z1", ⟨[0], "", "", ""⟩)]).1
    ∧ (LowSellingProductsMapReduce.reduceEntry ⟨[0], "", "", ""⟩).totalSales = 0
    ∧ ("Z1", LowSellingProductsMapReduce.reduceEntry ⟨[0], "", "", ""⟩)
        ∈ (LowSellingProductsMapReduce.reduce 100 [("Z1", ⟨[0], "", "", ""⟩)]).2 := by
  have h1 : (0 : ℚ) < 100 := by norm_num
  have h2 : ("Z1", LowSellingProductsMapReduce.reduceEntry ⟨[0], "", "", ""⟩)
      ∈ (LowSellingProductsMapReduce.reduce 100 [("Z1", ⟨[0], "", "", ""⟩)]).1 := by
    simp [LowSellingProductsMapReduce.reduce]
  have h3 : (LowSellingProductsMapReduce.reduceEntry ⟨[0], "", "", ""⟩).totalSales = 0 := by
    norm_num [LowSellingProductsMapReduce.reduceEntry]
  exact ⟨h1, h2, h3, C3_threshold_filter_exact.2.2.1 100 _ "Z1" _ h1 h2 h3⟩

/-! ### Claim C6 -/

/-- C6 is false as stated: the record whose item code is the non-empty,
whitespace-only string `" "` is not included by the low-selling map phase
(the code additionally requires the trimmed key to be non-empty). -/
theorem C6_nonempty_key_counterexample :
    blankCodeRecord.itemCode ≠ ""
    ∧ lookupKey blankCodeRecord.itemCode
        (LowSellingProductsMapReduce.mapPhase [blankCodeRecord]) = none := by
  refine ⟨by decide, ?_⟩
  have hinc : LowSellingProductsMapReduce.includes blankCodeRecord = false := by decide
  simp [LowSellingProductsMapReduce.mapPhase, LowSellingProductsMapReduce.mapStep,
    hinc, lookupKey]

/-- C6 (amended): the low-selling map phase includes every record whose
item code is non-empty and not whitespace-only — even records with zero
total sales — and its reduce phase computes `transactionCount` as the
count of strictly-positive contributions only, which can be strictly less
than the full accumulation length (as on the accumulation `[0]`). -/
theorem C6_zero_sales_included_and_positive_count :
    (∀ (rs : List Record) (r : Record), r ∈ rs →
      r.itemCode ≠ "" → trimNonempty r.itemCode = true →
      (lookupKey r.itemCode (LowSellingProductsMapReduce.mapPhase rs)).isSome = true)
    ∧ (∀ g : LowSellingProductsMapReduce.GroupData,
        (LowSellingProductsMapReduce.reduceEntry g).transactionCount
          = (g.sales.filter (fun s => decide (0 < s))).length
        ∧ (LowSellingProductsMapReduce.reduceEntry g).transactionCount
            ≤ g.sales.length)
    ∧ (LowSellingProductsMapReduce.reduceEntry ⟨[0], "N", "N", "N"⟩).transactionCount = 0
    ∧ ([0] : List ℚ).length = 1 := by
  refine ⟨?_, ?_, ?_, rfl⟩
  · intro rs r hmem hne htrim
    rw [LowSellingProductsMapReduce.isSome_lookupKey_mapPhase, List.any_eq_true]
    refine ⟨r, hmem, ?_⟩
    simp [LowSellingProductsMapReduce.includes, hne, htrim]
  · intro g
    exact ⟨rfl, List.length_filter_le _ _⟩
  · norm_num [LowSellingProductsMapReduce.reduceEntry, List.filter]

/-- Witness for C6 (amended): the zero-sales record `Z1` is included. -/
theorem C6_zero_sales_included_and_positive_count_witness :
    (zeroSalesRecord ∈ [zeroSalesRecord])
    ∧ zeroSalesRecord.itemCode ≠ ""
    ∧ trimNonempty zeroSalesRecord.itemCode = true
    ∧ (lookupKey zeroSalesRecord.itemCode
        (LowSellingProductsMapReduce.mapPhase [zeroSalesRecord])).isSome = true := by
  refine ⟨List.mem_singleton.mpr rfl, by decide, by decide, ?_⟩
  exact C6_zero_sales_included_and_positive_count.1 [zeroSalesRecord] zeroSalesRecord
    (List.mem_singleton.mpr rfl) (by decide) (by decide)

/-! ### Claim C1 -/

/-- C1: for every group produced by the map phase (shown for the two
analyses the claim names, low-selling products and monthly trends), the
reduce operation returns a summary whose `totalSales` equals the sum of
every contribution value appended to that group's accumulation list during
mapping. -/
theorem C1_reduced_totalSales_is_sum_of_contributions :
    (∀ (rs : List Record) (t : ℚ) (k : String)
        (g : LowSellingProductsMapReduce.GroupData),
      lookupKey k (LowSellingProductsMapReduce.mapPhase rs) = some g →
      lookupKey k (LowSellingProductsMapReduce.reduce t
          (LowSellingProductsMapReduce.mapPhase rs)).1
        = some (LowSellingProductsMapReduce.reduceEntry g)
      ∧ g.sales = LowSellingProductsMapReduce.contributionsAt k rs
      ∧ (LowSellingProductsMapReduce.reduceEntry g).totalSales
          = (LowSellingProductsMapReduce.contributionsAt k rs).sum)
    ∧ (∀ (rs : List Record) (k : String) (sales : List ℚ),
      lookupKey k (MonthlySalesTrendsMapReduce.mapPhase rs) = some sales →
      lookupKey k (MonthlySalesTrendsMapReduce.reduce
          (MonthlySalesTrendsMapReduce.mapPhase rs))
        = some (summarize sales)
      ∧ sales = MonthlySalesTrendsMapReduce.contributionsAt k rs
      ∧ (summarize sales).totalSales
          = (MonthlySalesTrendsMapReduce.contributionsAt k rs).sum) := by
  constructor
  · intro rs t k g h
    have hs := LowSellingProductsMapReduce.lsp_sales_of_lookupKey_mapPhase h
    refine ⟨?_, hs, ?_⟩
    · show lookupKey k ((LowSellingProductsMapReduce.mapPhase rs).map
        (fun e => (e.1, LowSellingProductsMapReduce.reduceEntry e.2))) = _
      rw [lookupKey_map, h]
      rfl
    · rw [← hs]
      simp [LowSellingProductsMapReduce.reduceEntry, foldl_add_eq_sum]
  · intro rs k sales h
    have hs := MonthlySalesTrendsMapReduce.monthly_sales_of_lookupKey_mapPhase h
    refine ⟨?_, hs, ?_⟩
    · show lookupKey k ((MonthlySalesTrendsMapReduce.mapPhase rs).map
        (fun e => (e.1, summarize e.2))) = _
      rw [lookupKey_map, h]
      rfl
    · rw [← hs, summarize_totalSales]

/-- Witness for C1 on the single record with total sales `75`. -/
theorem C1_reduced_totalSales_is_sum_of_contributions_witness :
    lookupKey "A001" (LowSellingProductsMapReduce.mapPhase [posSalesRecord])
      = some ⟨[75], "Widget", "WINE", "ACME"⟩
    ∧ (LowSellingProductsMapReduce.reduceEntry
        ⟨[75], "Widget", "WINE", "ACME"⟩).totalSales
        = (LowSellingProductsMapReduce.contributionsAt "A001" [posSalesRecord]).sum
    ∧ lookupKey "2021-01" (MonthlySalesTrendsMapReduce.mapPhase [posSalesRecord])
      = some [75]
    ∧ (summarize [75]).totalSales
        = (MonthlySalesTrendsMapReduce.contributionsAt "2021-01" [posSalesRecord]).sum := by
  have htot : recordTotalSales posSalesRecord = 75 := by
    norm_num [recordTotalSales, posSalesRecord, jsToNum]
  have hL : lookupKey "A001" (LowSellingProductsMapReduce.mapPhase [posSalesRecord])
      = some ⟨[75], "Widget", "WINE", "ACME"⟩ := by
    have hinc : LowSellingProductsMapReduce.includes posSalesRecord = true := by decide
    have hcode : posSalesRecord.itemCode = "A001" := rfl
    have hdesc : posSalesRecord.itemDescription = "Widget" := rfl
    have htype : posSalesRecord.itemType = "WINE" := rfl
    have hsupp : posSalesRecord.supplier = "ACME" := rfl
    simp [LowSellingProductsMapReduce.mapPhase, LowSellingProductsMapReduce.mapStep,
      hinc, htot, hcode, hdesc, htype, hsupp, upsert, lookupKey]
  have hM : lookupKey "2021-01" (MonthlySalesTrendsMapReduce.mapPhase [posSalesRecord])
      = some [75] := by
    have hinc : MonthlySalesTrendsMapReduce.includes posSalesRecord = true := by
      have hyear : posSalesRecord.year = "2021" := rfl
      have hmonth : posSalesRecord.month = "1" := rfl
      simp [MonthlySalesTrendsMapReduce.includes, htot, hyear, hmonth]
    have hkey : MonthlySalesTrendsMapReduce.monthKey posSalesRecord = "2021-01" := by
      decide
    simp [MonthlySalesTrendsMapReduce.mapPhase, MonthlySalesTrendsMapReduce.mapStep,
      hinc, hkey, htot, upsert, lookupKey]
  exact ⟨hL,
    (C1_reduced_totalSales_is_sum_of_contributions.1 [posSalesRecord] 100 "A001" _ hL).2.2,
    hM,
    (C1_reduced_totalSales_is_sum_of_contributions.2 [posSalesRecord] "2021-01" [75] hM).2.2⟩

/-! ### Claim C10 -/

/-- C10: in the monthly-trends, product-type, supplier and channel-split
analyses, every group created by the map phase has a non-empty accumulation
list whose entries are all strictly positive, so every reduced summary that
carries a count has `transactionCount ≥ 1` and the `averageSale` division
is never a division by zero (its result is never non-finite). -/
theorem C10_qualifying_groups_nonempty_positive :
    (∀ (rs : List Record) (kv : String × List ℚ),
      kv ∈ MonthlySalesTrendsMapReduce.mapPhase rs →
        kv.2 ≠ [] ∧ ∀ s ∈ kv.2, 0 < s)
    ∧ (∀ (rs : List Record) (kv : String × List ℚ),
      kv ∈ MostPopularProductTypeMapReduce.mapPhase rs →
        kv.2 ≠ [] ∧ ∀ s ∈ kv.2, 0 < s)
    ∧ (∀ (rs : List Record) (kv : String × List ℚ),
      kv ∈ TotalSalesBySupplierMapReduce.mapPhase rs →
        kv.2 ≠ [] ∧ ∀ s ∈ kv.2, 0 < s)
    ∧ (∀ (rs : List Record) (kv : String × List ℚ),
      kv ∈ RetailVsWarehouseSplitMapReduce.mapPhase rs →
        kv.2 ≠ [] ∧ ∀ s ∈ kv.2, 0 < s)
    ∧ (∀ (rs : List Record) (e : String × Summary),
      e ∈ MonthlySalesTrendsMapReduce.reduce
          (MonthlySalesTrendsMapReduce.mapPhase rs) →
        1 ≤ e.2.transactionCount ∧ e.2.averageSale ≠ none)
    ∧ (∀ (rs : List Record) (e : String × Summary),
      e ∈ MostPopularProductTypeMapReduce.reduce
          (MostPopularProductTypeMapReduce.mapPhase rs) →
        1 ≤ e.2.transactionCount ∧ e.2.averageSale ≠ none)
    ∧ (∀ (rs : List Record) (e : String × Summary),
      e ∈ RetailVsWarehouseSplitMapReduce.reduce
          (RetailVsWarehouseSplitMapReduce.mapPhase rs) →
        1 ≤ e.2.transactionCount ∧ e.2.averageSale ≠ none) := by
  refine ⟨fun rs kv h => MonthlySalesTrendsMapReduce.monthly_mem_mapPhase_pos rs kv h,
    fun rs kv h => MostPopularProductTypeMapReduce.productType_mem_mapPhase_pos rs kv h,
    fun rs kv h => TotalSalesBySupplierMapReduce.supplier_mem_mapPhase_pos rs kv h,
    fun rs kv h => RetailVsWarehouseSplitMapReduce.channel_mem_mapPhase_pos rs kv h,
    ?_, ?_, ?_⟩
  · intro rs e he
    obtain ⟨kv, hkv, hekv⟩ := List.mem_map.mp he
    obtain ⟨hne, -⟩ := MonthlySalesTrendsMapReduce.monthly_mem_mapPhase_pos rs kv hkv
    rw [← hekv]
    exact ⟨summarize_transactionCount_pos hne, summarize_averageSale_isSome hne⟩
  · intro rs e he
    obtain ⟨kv, hkv, hekv⟩ := List.mem_map.mp he
    obtain ⟨hne, -⟩ := MostPopularProductTypeMapReduce.productType_mem_mapPhase_pos rs kv hkv
    rw [← hekv]
    exact ⟨summarize_transactionCount_pos hne, summarize_averageSale_isSome hne⟩
  · intro rs e he
    obtain ⟨kv, hkv, hekv⟩ := List.mem_map.mp he
    obtain ⟨hne, -⟩ := RetailVsWarehouseSplitMapReduce.channel_mem_mapPhase_pos rs kv hkv
    rw [← hekv]
    exact ⟨summarize_transactionCount_pos hne, summarize_averageSale_isSome hne⟩

/-- Witness for C10 on the monthly-trends group of the sample record. -/
theorem C10_qualifying_groups_nonempty_positive_witness :
    (("2021-01", ([75] : List ℚ))
        ∈ MonthlySalesTrendsMapReduce.mapPhase [posSalesRecord])
    ∧ (([75] : List ℚ) ≠ [] ∧ ∀ s ∈ ([75] : List ℚ), 0 < s) := by
  have htot : recordTotalSales posSalesRecord = 75 := by
    norm_num [recordTotalSales, posSalesRecord, jsToNum]
  have hmap : MonthlySalesTrendsMapReduce.mapPhase [posSalesRecord]
      = [("2021-01", [75])] := by
    have hinc : MonthlySalesTrendsMapReduce.includes posSalesRecord = true := by
      have hyear : posSalesRecord.year = "2021" := rfl
      have hmonth : posSalesRecord.month = "1" := rfl
      simp [MonthlySalesTrendsMapReduce.includes, htot, hyear, hmonth]
    have hkey : MonthlySalesTrendsMapReduce.monthKey posSalesRecord = "2021-01" := by
      decide
    simp [MonthlySalesTrendsMapReduce.mapPhase, MonthlySalesTrendsMapReduce.mapStep,
      hinc, hkey, htot, upsert]
  have hmem : ("2021-01", ([75] : List ℚ))
      ∈ MonthlySalesTrendsMapReduce.mapPhase [posSalesRecord] := by
    rw [hmap]
    exact List.mem_singleton.mpr rfl
  exact ⟨hmem,
    C10_qualifying_groups_nonempty_positive.1 [posSalesRecord] ("2021-01", [75]) hmem⟩

/-! ### Claim C7 -/

/-- C7: for every reduced group map and every `n`, top-N selection returns
at most `n` entries — exactly `min n (group count)` of them, drawn from the
groups — and together with the dropped tail it is a permutation of all
groups, with every returned entry's `totalSales` at least that of every
entry not returned; hence when `n ≤ group count` it returns exactly the
`n` highest-total groups (up to the stable tie-breaking order).  Shown for
`getTopProducts` and `getTopSuppliers`. -/
theorem C7_topN_returns_highest_totals :
    (∀ (reduced : List (String × TopSellingProductsMapReduce.ItemSummary)) (n : ℕ),
      (TopSellingProductsMapReduce.getTopProducts reduced n).length
          = min n reduced.length
      ∧ List.Subperm (TopSellingProductsMapReduce.getTopProducts reduced n) reduced
      ∧ List.Perm
          (TopSellingProductsMapReduce.getTopProducts reduced n
            ++ (reduced.mergeSort
                (fun a b => decide (b.2.totalSales ≤ a.2.totalSales))).drop n)
          reduced
      ∧ ((reduced.mergeSort
            (fun a b => decide (b.2.totalSales ≤ a.2.totalSales))).drop n).all
          (fun y => (TopSellingProductsMapReduce.getTopProducts reduced n).all
            (fun x => decide (y.2.totalSales ≤ x.2.totalSales))) = true)
    ∧ (∀ (reduced : List (String × ℚ)) (n : ℕ),
      (TotalSalesBySupplierMapReduce.getTopSuppliers reduced n).length
          = min n reduced.length
      ∧ List.Subperm (TotalSalesBySupplierMapReduce.getTopSuppliers reduced n) reduced
      ∧ List.Perm
          (TotalSalesBySupplierMapReduce.getTopSuppliers reduced n
            ++ (reduced.mergeSort (fun a b => decide (b.2 ≤ a.2))).drop n)
          reduced
      ∧ ((reduced.mergeSort (fun a b => decide (b.2 ≤ a.2))).drop n).all
          (fun y => (TotalSalesBySupplierMapReduce.getTopSuppliers reduced n).all
            (fun x => decide (y.2 ≤ x.2))) = true) := by
  constructor
  · intro reduced n
    refine ⟨?_, ?_, ?_, ?_⟩
    · simp [TopSellingProductsMapReduce.getTopProducts, List.length_take,
        List.length_mergeSort]
    · exact ((List.take_sublist n _).subperm).trans
        (List.mergeSort_perm reduced _).subperm
    · show List.Perm (List.take n _ ++ List.drop n _) reduced
      rw [List.take_append_drop]
      exact List.mergeSort_perm reduced _
    · have hpair := List.sorted_mergeSort
        (key_ge_trans (fun e : String × TopSellingProductsMapReduce.ItemSummary =>
          e.2.totalSales))
        (key_ge_total (fun e : String × TopSellingProductsMapReduce.ItemSummary =>
          e.2.totalSales)) reduced
      rw [← List.take_append_drop n (reduced.mergeSort
        (fun a b => decide (b.2.totalSales ≤ a.2.totalSales)))] at hpair
      obtain ⟨-, -, h⟩ := List.pairwise_append.mp hpair
      rw [List.all_eq_true]
      intro y hy
      rw [List.all_eq_true]
      intro x hx
      exact h x hx y hy
  · intro reduced n
    refine ⟨?_, ?_, ?_, ?_⟩
    · simp [TotalSalesBySupplierMapReduce.getTopSuppliers, List.length_take,
        List.length_mergeSort]
    · exact ((List.take_sublist n _).subperm).trans
        (List.mergeSort_perm reduced _).subperm
    · show List.Perm (List.take n _ ++ List.drop n _) reduced
      rw [List.take_append_drop]
      exact List.mergeSort_perm reduced _
    · have hpair := List.sorted_mergeSort
        (key_ge_trans (fun e : String × ℚ => e.2))
        (key_ge_total (fun e : String × ℚ => e.2)) reduced
      rw [← List.take_append_drop n (reduced.mergeSort
        (fun a b => decide (b.2 ≤ a.2)))] at hpair
      obtain ⟨-, -, h⟩ := List.pairwise_append.mp hpair
      rw [List.all_eq_true]
      intro y hy
      rw [List.all_eq_true]
      intro x hx
      exact h x hx y hy

/-! ### Claim C8 -/

/-- C8: each ranking step produces one canonical order — ascending string
comparison of month keys for monthly trends, `totalSales` descending for
top products and top suppliers (shown on the full sorted list,
`getTopProducts m m.length` and `getTopSuppliers m m.length`), and
`totalSales` ascending for low-selling products — and in every case the
result is a permutation of the input in which groups with equal sort keys
keep their original insertion order (stability, expressed as equality of
the equal-key subsequences). -/
theorem C8_canonical_orders_stable :
    (∀ m : List (String × Summary),
      (MonthlySalesTrendsMapReduce.getMonthsSorted m).Pairwise
          (fun a b => a.1 ≤ b.1)
      ∧ List.Perm (MonthlySalesTrendsMapReduce.getMonthsSorted m) m
      ∧ ∀ v : String,
          (MonthlySalesTrendsMapReduce.getMonthsSorted m).filter
              (fun e => decide (e.1 = v))
            = m.filter (fun e => decide (e.1 = v)))
    ∧ (∀ m : List (String × TopSellingProductsMapReduce.ItemSummary),
      (TopSellingProductsMapReduce.getTopProducts m m.length).Pairwise
          (fun a b => b.2.totalSales ≤ a.2.totalSales)
      ∧ List.Perm (TopSellingProductsMapReduce.getTopProducts m m.length) m
      ∧ ∀ v : ℚ,
          (TopSellingProductsMapReduce.getTopProducts m m.length).filter
              (fun e => decide (e.2.totalSales = v))
            = m.filter (fun e => decide (e.2.totalSales = v)))
    ∧ (∀ m : List (String × ℚ),
      (TotalSalesBySupplierMapReduce.getTopSuppliers m m.length).Pairwise
          (fun a b => b.2 ≤ a.2)
      ∧ List.Perm (TotalSalesBySupplierMapReduce.getTopSuppliers m m.length) m
      ∧ ∀ v : ℚ,
          (TotalSalesBySupplierMapReduce.getTopSuppliers m m.length).filter
              (fun e => decide (e.2 = v))
            = m.filter (fun e => decide (e.2 = v)))
    ∧ (∀ m : List (String × LowSellingProductsMapReduce.ProductData),
      (LowSellingProductsMapReduce.getLowSellingProductsSorted m).Pairwise
          (fun a b => a.2.totalSales ≤ b.2.totalSales)
      ∧ List.Perm (LowSellingProductsMapReduce.getLowSellingProductsSorted m) m
      ∧ ∀ v : ℚ,
          (LowSellingProductsMapReduce.getLowSellingProductsSorted m).filter
              (fun e => decide (e.2.totalSales = v))
            = m.filter (fun e => decide (e.2.totalSales = v))) := by
  refine ⟨?_, ?_, ?_, ?_⟩
  · intro m
    refine ⟨?_, List.mergeSort_perm m _, ?_⟩
    · exact (List.sorted_mergeSort
        (key_le_trans (fun e : String × Summary => e.1))
        (key_le_total (fun e : String × Summary => e.1)) m).imp
        (fun h => of_decide_eq_true h)
    · intro v
      refine mergeSort_filter_stable _
        (key_le_trans (fun e : String × Summary => e.1))
        (key_le_total (fun e : String × Summary => e.1)) _ ?_ m
      intro a b ha hb
      rw [decide_eq_true_eq] at ha hb
      exact decide_eq_true (by rw [ha, hb])
  · intro m
    have hfull : TopSellingProductsMapReduce.getTopProducts m m.length
        = m.mergeSort (fun a b => decide (b.2.totalSales ≤ a.2.totalSales)) := by
      rw [TopSellingProductsMapReduce.getTopProducts]
      exact List.take_of_length_le (by simp [List.length_mergeSort])
    rw [hfull]
    refine ⟨?_, List.mergeSort_perm m _, ?_⟩
    · exact (List.sorted_mergeSort
        (key_ge_trans (fun e : String × TopSellingProductsMapReduce.ItemSummary =>
          e.2.totalSales))
        (key_ge_total (fun e : String × TopSellingProductsMapReduce.ItemSummary =>
          e.2.totalSales)) m).imp
        (fun h => of_decide_eq_true h)
    · intro v
      refine mergeSort_filter_stable _
        (key_ge_trans (fun e : String × TopSellingProductsMapReduce.ItemSummary =>
          e.2.totalSales))
        (key_ge_total (fun e : String × TopSellingProductsMapReduce.ItemSummary =>
          e.2.totalSales)) _ ?_ m
      intro a b ha hb
      rw [decide_eq_true_eq] at ha hb
      exact decide_eq_true (by rw [ha, hb])
  · intro m
    have hfull : TotalSalesBySupplierMapReduce.getTopSuppliers m m.length
        = m.mergeSort (fun a b => decide (b.2 ≤ a.2)) := by
      rw [TotalSalesBySupplierMapReduce.getTopSuppliers]
      exact List.take_of_length_le (by simp [List.length_mergeSort])
    rw [hfull]
    refine ⟨?_, List.mergeSort_perm m _, ?_⟩
    · exact (List.sorted_mergeSort
        (key_ge_trans (fun e : String × ℚ => e.2))
        (key_ge_total (fun e : String × ℚ => e.2)) m).imp
        (fun h => of_decide_eq_true h)
    · intro v
      refine mergeSort_filter_stable _
        (key_ge_trans (fun e : String × ℚ => e.2))
        (key_ge_total (fun e : String × ℚ => e.2)) _ ?_ m
      intro a b ha hb
      rw [decide_eq_true_eq] at ha hb
      exact decide_eq_true (by rw [ha, hb])
  · intro m
    refine ⟨?_, List.mergeSort_perm m _, ?_⟩
    · exact (List.sorted_mergeSort
        (key_le_trans (fun e : String × LowSellingProductsMapReduce.ProductData =>
          e.2.totalSales))
        (key_le_total (fun e : String × LowSellingProductsMapReduce.ProductData =>
          e.2.totalSales)) m).imp
        (fun h => of_decide_eq_true h)
    · intro v
      refine mergeSort_filter_stable _
        (key_le_trans (fun e : String × LowSellingProductsMapReduce.ProductData =>
          e.2.totalSales))
        (key_le_total (fun e : String × LowSellingProductsMapReduce.ProductData =>
          e.2.totalSales)) _ ?_ m
      intro a b ha hb
      rw [decide_eq_true_eq] at ha hb
      exact decide_eq_true (by rw [ha, hb])

/-! ### Claim C9 -/

/-- C9: for every analysis with at least one group (shown for the two
analyses that print market shares: most-popular-product-type and
retail-vs-warehouse split), every group's market share is a defined finite
number and the shares — each group's `totalSales` divided by the grand
total, times 100 — sum to exactly 100. -/
theorem C9_market_shares_sum_to_100 :
    (∀ rs : List Record,
      MostPopularProductTypeMapReduce.mapPhase rs ≠ [] →
      (∀ e ∈ MostPopularProductTypeMapReduce.getProductTypesByPopularity
          (MostPopularProductTypeMapReduce.reduce
            (MostPopularProductTypeMapReduce.mapPhase rs)),
        MostPopularProductTypeMapReduce.marketShare
          (MostPopularProductTypeMapReduce.totalRevenue
            (MostPopularProductTypeMapReduce.getProductTypesByPopularity
              (MostPopularProductTypeMapReduce.reduce
                (MostPopularProductTypeMapReduce.mapPhase rs)))) e.2 ≠ none)
      ∧ (MostPopularProductTypeMapReduce.getProductTypesByPopularity
          (MostPopularProductTypeMapReduce.reduce
            (MostPopularProductTypeMapReduce.mapPhase rs))).foldl
          (fun acc e => acc + (MostPopularProductTypeMapReduce.marketShare
            (MostPopularProductTypeMapReduce.totalRevenue
              (MostPopularProductTypeMapReduce.getProductTypesByPopularity
                (MostPopularProductTypeMapReduce.reduce
                  (MostPopularProductTypeMapReduce.mapPhase rs)))) e.2).getD 0) 0
        = 100)
    ∧ (∀ rs : List Record,
      RetailVsWarehouseSplitMapReduce.mapPhase rs ≠ [] →
      (∀ e ∈ RetailVsWarehouseSplitMapReduce.sortedResults
          (RetailVsWarehouseSplitMapReduce.reduce
            (RetailVsWarehouseSplitMapReduce.mapPhase rs)),
        RetailVsWarehouseSplitMapReduce.marketShare
          (RetailVsWarehouseSplitMapReduce.totalRevenue
            (RetailVsWarehouseSplitMapReduce.reduce
              (RetailVsWarehouseSplitMapReduce.mapPhase rs))) e.2 ≠ none)
      ∧ (RetailVsWarehouseSplitMapReduce.sortedResults
          (RetailVsWarehouseSplitMapReduce.reduce
            (RetailVsWarehouseSplitMapReduce.mapPhase rs))).foldl
          (fun acc e => acc + (RetailVsWarehouseSplitMapReduce.marketShare
            (RetailVsWarehouseSplitMapReduce.totalRevenue
              (RetailVsWarehouseSplitMapReduce.reduce
                (RetailVsWarehouseSplitMapReduce.mapPhase rs))) e.2).getD 0) 0
        = 100) := by
  constructor
  · intro rs hne
    set reduced := MostPopularProductTypeMapReduce.reduce
      (MostPopularProductTypeMapReduce.mapPhase rs) with hreduced
    set sorted := MostPopularProductTypeMapReduce.getProductTypesByPopularity reduced
      with hsorted
    set T := MostPopularProductTypeMapReduce.totalRevenue sorted with hTdef
    have hmemiff : ∀ e, e ∈ sorted ↔ e ∈ reduced := by
      intro e
      rw [hsorted]
      exact List.mem_mergeSort
    have hpos : ∀ e ∈ sorted, 0 < e.2.totalSales := by
      intro e he
      rw [hmemiff] at he
      obtain ⟨kv, hkv, hekv⟩ := List.mem_map.mp he
      obtain ⟨hne₂, hpos₂⟩ := MostPopularProductTypeMapReduce.productType_mem_mapPhase_pos rs kv hkv
      rw [← hekv]
      exact summarize_totalSales_pos hne₂ hpos₂
    have hsortne : sorted ≠ [] := by
      intro h
      have hlen : sorted.length = reduced.length := by
        rw [hsorted, MostPopularProductTypeMapReduce.getProductTypesByPopularity]
        exact List.length_mergeSort reduced
      rw [h] at hlen
      have : reduced = [] := List.length_eq_zero.mp hlen.symm
      exact hne (List.map_eq_nil_iff.mp this)
    have hT : T = (sorted.map (fun e => e.2.totalSales)).sum := by
      rw [hTdef, MostPopularProductTypeMapReduce.totalRevenue,
        foldl_add_map_eq_sum, zero_add]
    have hTpos : 0 < T := by
      rw [hT]
      refine List.sum_pos _ ?_ ?_
      · intro x hx
        obtain ⟨e, he, hex⟩ := List.mem_map.mp hx
        rw [← hex]
        exact hpos e he
      · simpa [List.map_eq_nil_iff] using hsortne
    have hT0 : T ≠ 0 := ne_of_gt hTpos
    constructor
    · intro e he
      simp [MostPopularProductTypeMapReduce.marketShare, jsDiv, hT0]
    · rw [foldl_add_map_eq_sum, zero_add]
      have hmap : sorted.map
          (fun e => (MostPopularProductTypeMapReduce.marketShare T e.2).getD 0)
          = sorted.map (fun e => e.2.totalSales * (100 / T)) := by
        apply List.map_congr_left
        intro e he
        simp [MostPopularProductTypeMapReduce.marketShare, jsDiv, hT0,
          div_mul_eq_mul_div, mul_div_assoc]
      rw [hmap, List.sum_map_mul_right, ← hT]
      field_simp
  · intro rs hne
    set reduced := RetailVsWarehouseSplitMapReduce.reduce
      (RetailVsWarehouseSplitMapReduce.mapPhase rs) with hreduced
    set sorted := RetailVsWarehouseSplitMapReduce.sortedResults reduced with hsorted
    set T := RetailVsWarehouseSplitMapReduce.totalRevenue reduced with hTdef
    have hperm : List.Perm sorted reduced := by
      rw [hsorted, RetailVsWarehouseSplitMapReduce.sortedResults]
      exact List.mergeSort_perm reduced _
    have hposR : ∀ e ∈ reduced, 0 < e.2.totalSales := by
      intro e he
      obtain ⟨kv, hkv, hekv⟩ := List.mem_map.mp he
      obtain ⟨hne₂, hpos₂⟩ := RetailVsWarehouseSplitMapReduce.channel_mem_mapPhase_pos rs kv hkv
      rw [← hekv]
      exact summarize_totalSales_pos hne₂ hpos₂
    have hredne : reduced ≠ [] := fun h => hne (List.map_eq_nil_iff.mp h)
    have hT : T = (reduced.map (fun e => e.2.totalSales)).sum := by
      rw [hTdef, RetailVsWarehouseSplitMapReduce.totalRevenue,
        foldl_add_map_eq_sum, zero_add]
    have hTpos : 0 < T := by
      rw [hT]
      refine List.sum_pos _ ?_ ?_
      · intro x hx
        obtain ⟨e, he, hex⟩ := List.mem_map.mp hx
        rw [← hex]
        exact hposR e he
      · simpa [List.map_eq_nil_iff] using hredne
    have hT0 : T ≠ 0 := ne_of_gt hTpos
    constructor
    · intro e he
      simp [RetailVsWarehouseSplitMapReduce.marketShare, jsDiv, hT0]
    · rw [foldl_add_map_eq_sum, zero_add]
      have hmap : sorted.map
          (fun e => (RetailVsWarehouseSplitMapReduce.marketShare T e.2).getD 0)
          = sorted.map (fun e => e.2.totalSales * (100 / T)) := by
        apply List.map_congr_left
        intro e he
        simp [RetailVsWarehouseSplitMapReduce.marketShare, jsDiv, hT0,
          div_mul_eq_mul_div, mul_div_assoc]
      have hsums : (sorted.map (fun e => e.2.totalSales)).sum
          = (reduced.map (fun e => e.2.totalSales)).sum :=
        (hperm.map (fun e => e.2.totalSales)).sum_eq
      rw [hmap, List.sum_map_mul_right, hsums, ← hT]
      field_simp

/-- Witness for C9 on the sample record with positive sales in both
channels. -/
theorem C9_market_shares_sum_to_100_witness :
    (MostPopularProductTypeMapReduce.mapPhase [posSalesRecord] ≠ [])
    ∧ (RetailVsWarehouseSplitMapReduce.mapPhase [posSalesRecord] ≠ [])
    ∧ (MostPopularProductTypeMapReduce.getProductTypesByPopularity
        (MostPopularProductTypeMapReduce.reduce
          (MostPopularProductTypeMapReduce.mapPhase [posSalesRecord]))).foldl
        (fun acc e => acc + (MostPopularProductTypeMapReduce.marketShare
          (MostPopularProductTypeMapReduce.totalRevenue
            (MostPopularProductTypeMapReduce.getProductTypesByPopularity
              (MostPopularProductTypeMapReduce.reduce
                (MostPopularProductTypeMapReduce.mapPhase [posSalesRecord]))))
          e.2).getD 0) 0 = 100
    ∧ (RetailVsWarehouseSplitMapReduce.sortedResults
        (RetailVsWarehouseSplitMapReduce.reduce
          (RetailVsWarehouseSplitMapReduce.mapPhase [posSalesRecord]))).foldl
        (fun acc e => acc + (RetailVsWarehouseSplitMapReduce.marketShare
          (RetailVsWarehouseSplitMapReduce.totalRevenue
            (RetailVsWarehouseSplitMapReduce.reduce
              (RetailVsWarehouseSplitMapReduce.mapPhase [posSalesRecord])))
          e.2).getD 0) 0 = 100 := by
  have hpt : MostPopularProductTypeMapReduce.mapPhase [posSalesRecord] ≠ [] := by
    have htot : recordTotalSales posSalesRecord = 75 := by
      norm_num [recordTotalSales, posSalesRecord, jsToNum]
    have hinc : MostPopularProductTypeMapReduce.includes posSalesRecord = true := by
      have htt : posSalesRecord.itemType = "WINE" := rfl
      simp [MostPopularProductTypeMapReduce.includes, htot, htt]
      decide
    simp [MostPopularProductTypeMapReduce.mapPhase,
      MostPopularProductTypeMapReduce.mapStep, hinc, upsert]
  have hch : RetailVsWarehouseSplitMapReduce.mapPhase [posSalesRecord] ≠ [] := by
    have hjr : jsToNum posSalesRecord.retailSales = 50 := rfl
    have hjw : jsToNum posSalesRecord.warehouseSales = 25 := rfl
    simp [RetailVsWarehouseSplitMapReduce.mapPhase,
      RetailVsWarehouseSplitMapReduce.mapStep, hjr, hjw, upsert,
      (by norm_num : (0:ℚ) < 50), (by norm_num : (0:ℚ) < 25)]
  exact ⟨hpt, hch,
    (C9_market_shares_sum_to_100.1 [posSalesRecord] hpt).2,
    (C9_market_shares_sum_to_100.2 [posSalesRecord] hch).2⟩
